import Mathlib

/-
Verification of the twpl locking core (src/twpl/twpl.py) against its
natural-language specification.

The embedding is shallow: the per-object lock state (`__is_locked_exclusively`,
`__handles`, the baton `__exclusive_filelock`) becomes an explicit record;
time quantities are rationals (seconds); outcomes supplied by the environment
(whether the advisory file lock's `acquire` returns or times out, how many
census polls report descriptors beyond the baton's own, which real path a
descriptor symlink resolves to) are explicit inputs.  Every operation returns
its final state, a trace of external actions (file-lock acquire/release,
census calls, sleeps, descriptor opens/closes, lockfile removal) and an
optional raised Python exception.
-/

namespace Twpl

/-- Module-level mode constants, twpl.py line 15: `EXCLUSIVE, CONCURRENT = 1, 2`. -/
def EXCLUSIVE : Nat := 1

/-- Module-level mode constants, twpl.py line 15: `EXCLUSIVE, CONCURRENT = 1, 2`. -/
def CONCURRENT : Nat := 2

/-- The Python exceptions that can arise on the modelled code paths.
`fileLockTimeout` is `filelock.Timeout` (imported as `FileLockTimeoutError`),
raised by the filelock primitive or at twpl.py line 192 and caught at line 195;
`twplTimeout` is the public `TwplTimeoutError`; `twplValue` is `TwplValueError`;
`assertionError` is a failed `assert ..., _BUGASS`; `typeError` is the
`TypeError` Python raises from `sleep(None)`. -/
inductive PyError where
  | fileLockTimeout
  | twplTimeout
  | twplValue
  | assertionError
  | typeError
  deriving DecidableEq, Repr

/-- External actions an operation can perform: acquiring or releasing an
advisory file lock on the lockfile, one call to the descriptor census
`fds_exceed` (the only place the descriptor cache is read or mutated),
`time.sleep(d)` where `d = none` models Python `None`, opening or closing a
descriptor on the lockfile, and removing the lockfile. -/
inductive Ev where
  | batonAcquire
  | batonRelease
  | censusPoll
  | sleepCall (d : Option ℚ)
  | openHandle
  | closeHandle
  | removeLockfile
  deriving DecidableEq, Repr

/-- The scan loop of `_fds_exceed_POSIX` (twpl.py lines 72-85): walk candidate
descriptor entries, resolving each symlink.  `resolve fd = none` models
`path.realpath(fd)` raising `FileNotFoundError` (entry vanished mid-scan);
the exception is caught, the entry treated as not matching and pruned from
the live cache.  A match is added to the cache and counted; the loop returns
`true` early once the count strictly exceeds `mincount`, and `false` if the
iteration completes.  Returns the result with the final cache. -/
def fdsLoop (resolve : String → Option String) (realpath : String)
    (mincount : Nat) : List String → Finset String → Nat → Bool × Finset String
  | [], fdcache, _ => (false, fdcache)
  | fd :: rest, fdcache, n =>
    match resolve fd with
    | some p =>
      if p = realpath then
        let fdcache := insert fd fdcache
        if n + 1 > mincount then (true, fdcache)
        else fdsLoop resolve realpath mincount rest fdcache (n + 1)
      else if fd ∈ fdcache then
        fdsLoop resolve realpath mincount rest (fdcache.erase fd) n
      else fdsLoop resolve realpath mincount rest fdcache n
    | none =>
      if fd ∈ fdcache then
        fdsLoop resolve realpath mincount rest (fdcache.erase fd) n
      else fdsLoop resolve realpath mincount rest fdcache n

/-- Iteration order of `_iter_fds` (twpl.py lines 60-71): first the entries of
the cache copy taken at entry, then the fresh `/proc` enumeration skipping
entries already in that copy. -/
def iterFds (fdcacheCopy scanned : List String) : List String :=
  fdcacheCopy ++ scanned.filter (fun fd => decide (fd ∉ fdcacheCopy))

/-- `_fds_exceed_POSIX(filename, mincount, fdcache)` (twpl.py lines 53-85).
`realpath` is `path.realpath(filename)` computed once; `fdcacheCopy` is an
enumeration of the caller's descriptor cache (`set(fdcache)` frozen at entry);
`scanned` is the fresh system-wide enumeration of `/proc/<pid>/fd/*` entries.
The function is total: the only exception arising inside the scan,
`FileNotFoundError`, is caught by the loop. -/
def fds_exceed_POSIX (resolve : String → Option String) (realpath : String)
    (fdcacheCopy scanned : List String) (mincount : Nat) : Bool × Finset String :=
  fdsLoop resolve realpath mincount (iterFds fdcacheCopy scanned)
    fdcacheCopy.toFinset 0

/-- Number of descriptor entries in `l` whose symlink currently resolves to
`realpath`. -/
def matchCount (resolve : String → Option String) (realpath : String)
    (l : List String) : Nat :=
  l.countP (fun fd => decide (resolve fd = some realpath))

/-- The mutable per-object accounting of a `Twpl` object (twpl.py
lines 91-103): the immutable default polling period `__poll_interval`, the
flag `__is_locked_exclusively`, the list `__handles` of open descriptors
(one per concurrent acquisition, identified by an opaque number), and whether
`__exclusive_filelock` is currently held (`is_locked`). -/
structure TwplState where
  poll_interval : ℚ
  is_locked_exclusively : Bool
  handles : List Nat
  batonLocked : Bool
  deriving DecidableEq, Repr

/-- The object invariant: holding exclusively implies no concurrent handles. -/
def Inv (s : TwplState) : Prop :=
  s.is_locked_exclusively = true → s.handles = []

/-- A freshly constructed object (twpl.py lines 96-103): default
`poll_interval` 0.1, no exclusive hold, no handles, baton not held. -/
def idle : TwplState :=
  { poll_interval := 1/10, is_locked_exclusively := false,
    handles := [], batonLocked := false }

/-- Python `poll_interval or default`: `None` and `0` are falsy. -/
def pyOr (pollArg : Option ℚ) (default : ℚ) : ℚ :=
  match pollArg with
  | none => default
  | some p => if p = 0 then default else p

/-- Environment-supplied outcome of `self.__exclusive_filelock.acquire(...)`
(twpl.py lines 184-187): either the filelock raises its timeout error, or it
returns after `elapsed` seconds. -/
inductive BatonOutcome where
  | timedOut
  | acquiredAfter (elapsed : ℚ)
  deriving DecidableEq, Repr

/-- Environment input to one exclusive acquisition: the baton outcome and the
number of census calls reporting `True` before one reports `False`. -/
structure ExclusiveInput where
  baton : BatonOutcome
  busyPolls : Nat
  deriving DecidableEq, Repr

/-- The census-wait loop of `Twpl.__acquire_exclusive` (twpl.py lines
189-194), entered with budget `remaining`, run while `fds_exceed` reports
`True` (`busyPolls` times, after which it reports `False`).  Each busy
iteration subtracts the effective poll interval from the budget, raises the
filelock timeout error when the budget goes negative, and otherwise executes
`sleep(poll_interval)` with the RAW argument — which is `None`, hence a
`TypeError`, whenever no explicit poll interval was passed. -/
def censusWait (pollArg : Option ℚ) (defaultPoll : ℚ) :
    Nat → ℚ → List Ev × Except PyError ℚ
  | 0, remaining => ([Ev.censusPoll], Except.ok remaining)
  | busyPolls + 1, remaining =>
    let r := remaining - pyOr pollArg defaultPoll
    if r < 0 then
      ([Ev.censusPoll], Except.error PyError.fileLockTimeout)
    else
      match pollArg with
      | none => ([Ev.censusPoll], Except.error PyError.typeError)
      | some p =>
        let rest := censusWait pollArg defaultPoll busyPolls r
        (Ev.censusPoll :: Ev.sleepCall (some p) :: rest.1, rest.2)

/-- `Twpl.__acquire_exclusive(poll_interval, timeout)` (twpl.py lines
181-200).  The baton is acquired with the filelock's own timeout; the budget
for the census wait is then initialised to `(now - start).total_seconds()`,
i.e. the time the baton acquisition took (line 188).  A filelock timeout from
either stage is converted to `TwplTimeoutError` (line 195-196) — without
releasing the baton; any other exception (the `TypeError` from `sleep(None)`)
propagates unchanged.  On a clear census the object asserts it holds nothing
and sets the exclusive flag (lines 197-199). -/
def acquireExclusive (s : TwplState) (pollArg timeoutArg : Option ℚ)
    (inp : ExclusiveInput) : TwplState × List Ev × Option PyError :=
  match inp.baton with
  | BatonOutcome.timedOut =>
    (s, [], some PyError.twplTimeout)
  | BatonOutcome.acquiredAfter elapsed =>
    let s1 : TwplState := { s with batonLocked := true }
    let timeout_remaining : ℚ := elapsed
    match censusWait pollArg s.poll_interval inp.busyPolls timeout_remaining with
    | (evs, Except.error PyError.fileLockTimeout) =>
      (s1, Ev.batonAcquire :: evs, some PyError.twplTimeout)
    | (evs, Except.error e) =>
      (s1, Ev.batonAcquire :: evs, some e)
    | (evs, Except.ok _) =>
      if s1.is_locked_exclusively || !s1.handles.isEmpty then
        (s1, Ev.batonAcquire :: evs, some PyError.assertionError)
      else
        ({ s1 with is_locked_exclusively := true },
          Ev.batonAcquire :: evs, none)

/-- `Twpl.__release_exclusive` (twpl.py lines 202-208): assert the exclusive
flag, clear it, assert the filelock is held, release it. -/
def releaseExclusive (s : TwplState) : TwplState × List Ev × Option PyError :=
  if s.is_locked_exclusively then
    let s1 : TwplState := { s with is_locked_exclusively := false }
    if s1.batonLocked then
      ({ s1 with batonLocked := false }, [Ev.batonRelease], none)
    else
      (s1, [], some PyError.assertionError)
  else
    (s, [], some PyError.assertionError)

/-- Environment-supplied outcome of the momentary filelock acquisition in
`Twpl.__acquire_concurrent` (twpl.py lines 211-216). -/
inductive MomentaryOutcome where
  | timedOut
  | acquired
  deriving DecidableEq, Repr

/-- Environment input to one concurrent acquisition: the momentary filelock
outcome and the identity of the descriptor opened at twpl.py line 220. -/
structure ConcurrentInput where
  momentary : MomentaryOutcome
  handle : Nat
  deriving DecidableEq, Repr

/-- `Twpl.__acquire_concurrent(poll_interval, timeout)` (twpl.py lines
210-226): take the momentary filelock (timeout converts to
`TwplTimeoutError`), open one new descriptor on the lockfile, release the
filelock, then assert no exclusive hold and append the descriptor. -/
def acquireConcurrent (s : TwplState) (pollArg timeoutArg : Option ℚ)
    (inp : ConcurrentInput) : TwplState × List Ev × Option PyError :=
  match inp.momentary with
  | MomentaryOutcome.timedOut =>
    (s, [], some PyError.twplTimeout)
  | MomentaryOutcome.acquired =>
    let evs := [Ev.batonAcquire, Ev.openHandle, Ev.batonRelease]
    if s.is_locked_exclusively then
      (s, evs, some PyError.assertionError)
    else
      ({ s with handles := s.handles ++ [inp.handle] }, evs, none)

/-- `Twpl.__release_concurrent` (twpl.py lines 228-232): assert some handle
exists, pop the last one and close it. -/
def releaseConcurrent (s : TwplState) : TwplState × List Ev × Option PyError :=
  if s.handles.isEmpty then
    (s, [], some PyError.assertionError)
  else
    ({ s with handles := s.handles.dropLast }, [Ev.closeHandle], none)

/-- The `Twpl.mode` property (twpl.py lines 109-119): `EXCLUSIVE` when the
exclusive flag is set (asserting no handles), `CONCURRENT` when handles exist
(asserting no exclusive flag), `None` otherwise. -/
def mode (s : TwplState) : Except PyError (Option Nat) :=
  if s.is_locked_exclusively then
    if s.handles.isEmpty then Except.ok (some EXCLUSIVE)
    else Except.error PyError.assertionError
  else if !s.handles.isEmpty then
    if s.is_locked_exclusively then Except.error PyError.assertionError
    else Except.ok (some CONCURRENT)
  else
    Except.ok none

/-- Environment input to `Twpl.acquire`, bundling the inputs either private
acquisition would need. -/
structure AcquireInput where
  ex : ExclusiveInput
  conc : ConcurrentInput
  deriving DecidableEq, Repr

/-- `Twpl.acquire(mode, poll_interval, timeout)` (twpl.py lines 129-136):
dispatch on the mode argument, raising `TwplValueError` for anything other
than `EXCLUSIVE` or `CONCURRENT` before doing anything else. -/
def acquire (s : TwplState) (m : Nat) (pollArg timeoutArg : Option ℚ)
    (inp : AcquireInput) : TwplState × List Ev × Option PyError :=
  if m = EXCLUSIVE then acquireExclusive s pollArg timeoutArg inp.ex
  else if m = CONCURRENT then acquireConcurrent s pollArg timeoutArg inp.conc
  else (s, [], some PyError.twplValue)

/-- `Twpl.release()` (twpl.py lines 138-145): consult `mode`, release
accordingly, no-op when not held. -/
def release (s : TwplState) : TwplState × List Ev × Option PyError :=
  match mode s with
  | Except.error e => (s, [], some e)
  | Except.ok mo =>
    if mo = some EXCLUSIVE then releaseExclusive s
    else if mo = some CONCURRENT then releaseConcurrent s
    else (s, [], none)

/-- The `Twpl.exclusive` context manager (twpl.py lines 147-153) run over an
empty body: `try: yield acquire() finally: release()`.  When the acquisition
raises, the `finally` clause still runs the release on the post-acquisition
state, and an exception raised by the release replaces the original one. -/
def exclusiveScoped (s : TwplState) (pollArg timeoutArg : Option ℚ)
    (inp : ExclusiveInput) : TwplState × List Ev × Option PyError :=
  match acquireExclusive s pollArg timeoutArg inp with
  | (s1, evs, some e) =>
    match releaseExclusive s1 with
    | (s2, evs2, some e2) => (s2, evs ++ evs2, some e2)
    | (s2, evs2, none) => (s2, evs ++ evs2, some e)
  | (s1, evs, none) =>
    match releaseExclusive s1 with
    | (s2, evs2, r) => (s2, evs ++ evs2, r)

/-- The `Twpl.concurrent` context manager (twpl.py lines 155-161) run over an
empty body, with the same `try`/`finally` semantics as `exclusiveScoped`. -/
def concurrentScoped (s : TwplState) (pollArg timeoutArg : Option ℚ)
    (inp : ConcurrentInput) : TwplState × List Ev × Option PyError :=
  match acquireConcurrent s pollArg timeoutArg inp with
  | (s1, evs, some e) =>
    match releaseConcurrent s1 with
    | (s2, evs2, some e2) => (s2, evs ++ evs2, some e2)
    | (s2, evs2, none) => (s2, evs ++ evs2, some e)
  | (s1, evs, none) =>
    match releaseConcurrent s1 with
    | (s2, evs2, r) => (s2, evs ++ evs2, r)

/-- Environment for one `Twpl.clean` call: whether
`FileLock(filename, timeout=0)` acquires instantly, the descriptor-resolution
and `/proc` enumeration seen by the census under the baton, and the lockfile
age `now - ctime` in seconds. -/
structure CleanEnv where
  batonFree : Bool
  resolve : String → Option String
  scanned : List String
  ageSeconds : ℚ

/-- `Twpl.clean(min_age_seconds)` (twpl.py lines 163-179): try the baton with
zero timeout (a busy baton raises the filelock timeout, caught to return
`False`); under the baton run the census with threshold 1 on the live cache;
if it reports more descriptors, return `False`; otherwise remove the lockfile
and return `True` exactly when the ctime age reaches `min_age_seconds`.
Returns the result, the trace, and the descriptor cache after the call. -/
def clean (env : CleanEnv) (realpath : String) (fdcache : List String)
    (min_age_seconds : ℚ) : Bool × List Ev × Finset String :=
  if env.batonFree then
    let census := fds_exceed_POSIX env.resolve realpath fdcache env.scanned 1
    if !census.1 then
      if env.ageSeconds ≥ min_age_seconds then
        (true, [Ev.batonAcquire, Ev.censusPoll, Ev.removeLockfile,
          Ev.batonRelease], census.2)
      else
        (false, [Ev.batonAcquire, Ev.censusPoll, Ev.batonRelease], census.2)
    else
      (false, [Ev.batonAcquire, Ev.censusPoll, Ev.batonRelease], census.2)
  else
    (false, [], fdcache.toFinset)

/-- The names bound at module level in src/twpl/twpl.py (imports,
lines 1-10; definitions, lines 13-31, 53 and 88). -/
def twplModuleNames : List String :=
  ["platform", "path", "stat", "getpid", "walk", "remove",
   "NamedTemporaryFile", "iglob", "FileLockTimeoutError", "FileLock", "Lock",
   "SimpleNamespace", "contextmanager", "datetime", "sleep", "__version__",
   "EXCLUSIVE", "CONCURRENT", "TwplPlatformError", "TwplValueError",
   "TwplTimeoutError", "_ERR_PROC_TEST", "_ERR_PLATFORM_TEST", "_ERR_MODE",
   "_ERR_ACQUIRE", "_BUGASS", "fds_exceed", "_fds_exceed_POSIX", "Twpl"]

/-- The names src/twpl/__init__.py imports from the core module
(`from .twpl import ...`, lines 1 and 4). -/
def initImports : List String :=
  ["Twpl", "__version__", "EXCLUSIVE", "CONCURRENT",
   "TwplError", "TwplValueError", "TwplPlatformError"]

/-- Whether `import twpl` succeeds: every name the package `__init__` imports
from the core module must be bound there. -/
def packageImportSucceeds : Bool :=
  initImports.all (fun n => twplModuleNames.contains n)

/-- Fold of `k` successful concurrent acquisitions (momentary filelock
acquired each time), appending the handle identities in `hs` in order. -/
def acqConcN (s : TwplState) (hs : List Nat) : TwplState :=
  hs.foldl (fun t h =>
    (acquireConcurrent t none none ⟨MomentaryOutcome.acquired, h⟩).1) s

/-- Fold of `k` concurrent releases. -/
def relConcN : TwplState → Nat → TwplState
  | s, 0 => s
  | s, k + 1 => relConcN (releaseConcurrent s).1 k

/-- A fixed environment input for witness instantiations of `acquire`. -/
def dummyAcqInput : AcquireInput :=
  ⟨⟨BatonOutcome.timedOut, 0⟩, ⟨MomentaryOutcome.timedOut, 0⟩⟩

/-- A fixed descriptor resolver for witness instantiations of the census:
one live matching entry, one vanished entry, one entry resolving elsewhere. -/
def witnessResolve : String → Option String :=
  fun fd => if fd = "/proc/9/fd/3" then some "/tmp/L"
    else if fd = "/proc/9/fd/4" then none
    else some "/etc/hosts"

theorem acqConcN_cons (s : TwplState) (a : Nat) (t : List Nat) :
    acqConcN s (a :: t)
      = acqConcN
          ((acquireConcurrent s none none ⟨MomentaryOutcome.acquired, a⟩).1) t :=
  rfl

theorem acqConcN_spec (hs : List Nat) : ∀ s : TwplState,
    s.is_locked_exclusively = false →
    (acqConcN s hs).is_locked_exclusively = false
    ∧ (acqConcN s hs).handles = s.handles ++ hs := by
  induction hs with
  | nil => intro s h; simp [acqConcN, h]
  | cons a t ih =>
    intro s h
    have hstep : (acquireConcurrent s none none
        ⟨MomentaryOutcome.acquired, a⟩).1 = { s with handles := s.handles ++ [a] } := by
      simp [acquireConcurrent, h]
    rw [acqConcN_cons, hstep]
    obtain ⟨ih1, ih2⟩ := ih { s with handles := s.handles ++ [a] } h
    exact ⟨ih1, by rw [ih2]; simp⟩

theorem relConcN_spec : ∀ (k : Nat) (s : TwplState), s.handles.length = k →
    (relConcN s k).is_locked_exclusively = s.is_locked_exclusively
    ∧ (relConcN s k).handles = [] := by
  intro k
  induction k with
  | zero =>
    intro s hl
    exact ⟨rfl, List.length_eq_zero.mp hl⟩
  | succ n ih =>
    intro s hl
    have hne : s.handles.isEmpty = false := by
      cases hh : s.handles with
      | nil => rw [hh] at hl; simp at hl
      | cons a t => simp [hh]
    have hstep : (releaseConcurrent s).1
        = { s with handles := s.handles.dropLast } := by
      simp [releaseConcurrent, hne]
    show (relConcN (releaseConcurrent s).1 n).is_locked_exclusively
          = s.is_locked_exclusively
      ∧ (relConcN (releaseConcurrent s).1 n).handles = []
    rw [hstep]
    exact ih { s with handles := s.handles.dropLast }
      (by simp [List.length_dropLast, hl])

/-- C6: starting from an object with no exclusive hold and no handles, `k`
successful concurrent acquisitions followed by `k` releases leave the handle
list empty and the mode `None`; moreover a successful concurrent acquisition
appends exactly one handle (the new one, at the end) and a concurrent
release removes exactly one handle (the last). -/
theorem concurrent_reentrancy (s s2 s3 : TwplState) (hs : List Nat) (hnd : Nat)
    (pa ta : Option ℚ)
    (h1 : s.is_locked_exclusively = false) (h2 : s.handles = [])
    (h3 : s2.is_locked_exclusively = false) (h4 : s3.handles ≠ []) :
    (relConcN (acqConcN s hs) hs.length).handles = []
    ∧ mode (relConcN (acqConcN s hs) hs.length) = Except.ok none
    ∧ (acquireConcurrent s2 pa ta ⟨MomentaryOutcome.acquired, hnd⟩).1.handles
        = s2.handles ++ [hnd]
    ∧ (releaseConcurrent s3).1.handles = s3.handles.dropLast := by
  obtain ⟨hf, hh⟩ := acqConcN_spec hs s h1
  have hlen : (acqConcN s hs).handles.length = hs.length := by
    rw [hh, h2]; simp
  obtain ⟨hf2, hh2⟩ := relConcN_spec hs.length (acqConcN s hs) hlen
  rw [hf] at hf2
  refine ⟨hh2, ?_, ?_, ?_⟩
  · simp [mode, hf2, hh2]
  · simp [acquireConcurrent, h3]
  · have hne : s3.handles.isEmpty = false := by
      cases hh3 : s3.handles with
      | nil => exact absurd hh3 h4
      | cons a t => simp
    simp [releaseConcurrent, hne]

/-- C6 witness inputs: an object holding one concurrent handle. -/
def busy3 : TwplState := { idle with handles := [3] }

/-- C6 witness: two acquisitions and two releases on a fresh object, one
acquisition on a fresh object, one release on an object with one handle. -/
theorem concurrent_reentrancy_witness :
    (relConcN (acqConcN idle [5, 6]) [5, 6].length).handles = []
    ∧ mode (relConcN (acqConcN idle [5, 6]) [5, 6].length) = Except.ok none
    ∧ (acquireConcurrent idle none none
        ⟨MomentaryOutcome.acquired, 7⟩).1.handles = idle.handles ++ [7]
    ∧ (releaseConcurrent busy3).1.handles = busy3.handles.dropLast :=
  concurrent_reentrancy idle idle busy3 [5, 6] 7 none none rfl rfl rfl
    (by intro h; simp [busy3, idle] at h)

theorem fdsLoop_fst (resolve : String → Option String) (realpath : String)
    (mincount : Nat) : ∀ (l : List String) (cache : Finset String) (n : Nat),
    n ≤ mincount →
    (fdsLoop resolve realpath mincount l cache n).1
      = decide (mincount < n + matchCount resolve realpath l) := by
  intro l
  induction l with
  | nil =>
    intro cache n hn
    simp only [fdsLoop, matchCount, List.countP_nil, Nat.add_zero]
    exact (decide_eq_false (by omega)).symm
  | cons fd rest ih =>
    intro cache n hn
    unfold fdsLoop
    cases hr : resolve fd with
    | some p =>
      by_cases hp : p = realpath
      · have hm : matchCount resolve realpath (fd :: rest)
            = matchCount resolve realpath rest + 1 := by
          simp [matchCount, List.countP_cons, hr, hp]
        by_cases hcnt : n + 1 > mincount
        · simp only [hp, eq_self_iff_true, if_true, if_pos hcnt, hm]
          exact (decide_eq_true (by omega)).symm
        · simp only [hp, eq_self_iff_true, if_true, if_neg hcnt, hm]
          rw [ih (insert fd cache) (n + 1) (by omega)]
          simp only [decide_eq_decide]
          omega
      · have hm : matchCount resolve realpath (fd :: rest)
            = matchCount resolve realpath rest := by
          simp [matchCount, List.countP_cons, hr, hp]
        rw [hm]
        by_cases hc : fd ∈ cache
        · simp only [if_neg hp, if_pos hc]
          exact ih (cache.erase fd) n hn
        · simp only [if_neg hp, if_neg hc]
          exact ih cache n hn
    | none =>
      have hm : matchCount resolve realpath (fd :: rest)
          = matchCount resolve realpath rest := by
        simp [matchCount, List.countP_cons, hr]
      rw [hm]
      by_cases hc : fd ∈ cache
      · simp only [if_pos hc]
        exact ih (cache.erase fd) n hn
      · simp only [if_neg hc]
        exact ih cache n hn

theorem fdsLoop_cache_mem (resolve : String → Option String) (realpath : String)
    (mincount : Nat) : ∀ (l : List String) (cache : Finset String) (n : Nat)
    (fd : String), fd ∉ l →
    fd ∈ (fdsLoop resolve realpath mincount l cache n).2 → fd ∈ cache := by
  intro l
  induction l with
  | nil => intro cache n fd _ hmem; simpa [fdsLoop] using hmem
  | cons a rest ih =>
    intro cache n fd hnl hmem
    have hfa : fd ≠ a := fun he => hnl (he ▸ List.mem_cons_self a rest)
    have hfr : fd ∉ rest := fun he => hnl (List.mem_cons_of_mem a he)
    unfold fdsLoop at hmem
    cases hr : resolve a with
    | some p =>
      rw [hr] at hmem
      by_cases hp : p = realpath
      · by_cases hcnt : n + 1 > mincount
        · simp only [hp, eq_self_iff_true, if_true, if_pos hcnt] at hmem
          exact (Finset.mem_insert.mp hmem).resolve_left hfa
        · simp only [hp, eq_self_iff_true, if_true, if_neg hcnt] at hmem
          exact (Finset.mem_insert.mp (ih (insert a cache) (n + 1) fd hfr
            hmem)).resolve_left hfa
      · by_cases hc : a ∈ cache
        · simp only [if_neg hp, if_pos hc] at hmem
          exact Finset.mem_of_mem_erase (ih (cache.erase a) n fd hfr hmem)
        · simp only [if_neg hp, if_neg hc] at hmem
          exact ih cache n fd hfr hmem
    | none =>
      rw [hr] at hmem
      by_cases hc : a ∈ cache
      · simp only [if_pos hc] at hmem
        exact Finset.mem_of_mem_erase (ih (cache.erase a) n fd hfr hmem)
      · simp only [if_neg hc] at hmem
        exact ih cache n fd hfr hmem

theorem fdsLoop_vanished (resolve : String → Option String) (realpath : String)
    (mincount : Nat) : ∀ (l : List String) (cache : Finset String) (n : Nat)
    (fd : String), l.Nodup → fd ∈ l → resolve fd = none →
    (fdsLoop resolve realpath mincount l cache n).1 = false →
    fd ∉ (fdsLoop resolve realpath mincount l cache n).2 := by
  intro l
  induction l with
  | nil => intro _ _ fd _ hmem; simp at hmem
  | cons a rest ih =>
    intro cache n fd hnd hmem hres hfalse
    obtain ⟨hna, hndr⟩ := List.nodup_cons.mp hnd
    rcases List.mem_cons.mp hmem with he | hin
    · subst he
      unfold fdsLoop
      simp only [hres]
      by_cases hc : fd ∈ cache
      · simp only [if_pos hc]
        intro hmem2
        exact Finset.not_mem_erase fd cache
          (fdsLoop_cache_mem resolve realpath mincount rest (cache.erase fd)
            n fd hna hmem2)
      · simp only [if_neg hc]
        intro hmem2
        exact hc (fdsLoop_cache_mem resolve realpath mincount rest cache n fd
          hna hmem2)
    · have hfa : fd ≠ a := fun he => hna (he ▸ hin)
      unfold fdsLoop at hfalse ⊢
      cases hr : resolve a with
      | some p =>
        rw [hr] at hfalse
        by_cases hp : p = realpath
        · by_cases hcnt : n + 1 > mincount
          · simp only [hp, eq_self_iff_true, if_true, if_pos hcnt] at hfalse
            exact absurd hfalse (by decide)
          · simp only [hp, eq_self_iff_true, if_true, if_neg hcnt] at hfalse ⊢
            exact ih (insert a cache) (n + 1) fd hndr hin hres hfalse
        · by_cases hc : a ∈ cache
          · simp only [if_neg hp, if_pos hc] at hfalse ⊢
            exact ih (cache.erase a) n fd hndr hin hres hfalse
          · simp only [if_neg hp, if_neg hc] at hfalse ⊢
            exact ih cache n fd hndr hin hres hfalse
      | none =>
        rw [hr] at hfalse
        by_cases hc : a ∈ cache
        · simp only [if_pos hc] at hfalse ⊢
          exact ih (cache.erase a) n fd hndr hin hres hfalse
        · simp only [if_neg hc] at hfalse ⊢
          exact ih cache n fd hndr hin hres hfalse

/-- C8: on a duplicate-free candidate enumeration (the cache entries followed
by the fresh system scan), the census returns `true` exactly when strictly
more than `mincount` candidate descriptor entries currently resolve to the
canonicalised path; and on a completed scan every entry that vanished
(`FileNotFoundError` from resolution) is absent from the resulting cache.
The census itself is a total function: the `FileNotFoundError` is consumed
inside the loop and nothing else can be raised. -/
theorem fds_exceed_correct (resolve : String → Option String)
    (realpath : String) (fdcacheCopy scanned : List String) (mincount : Nat)
    (hnd : (fdcacheCopy ++ scanned).Nodup) :
    ((fds_exceed_POSIX resolve realpath fdcacheCopy scanned mincount).1
      = decide (mincount
          < matchCount resolve realpath (fdcacheCopy ++ scanned)))
    ∧ ((fds_exceed_POSIX resolve realpath fdcacheCopy scanned mincount).1
          = false →
        ∀ fd ∈ fdcacheCopy ++ scanned, resolve fd = none →
          fd ∉ (fds_exceed_POSIX resolve realpath fdcacheCopy scanned
            mincount).2) := by
  have hdisj : ∀ fd ∈ scanned, fd ∉ fdcacheCopy := by
    intro fd hfd hmem
    exact (List.disjoint_of_nodup_append hnd) hmem hfd
  have hiter : iterFds fdcacheCopy scanned = fdcacheCopy ++ scanned := by
    unfold iterFds
    congr 1
    exact List.filter_eq_self.mpr (fun a ha => by
      simpa using hdisj a ha)
  constructor
  · unfold fds_exceed_POSIX
    rw [hiter, fdsLoop_fst resolve realpath mincount (fdcacheCopy ++ scanned)
      fdcacheCopy.toFinset 0 (Nat.zero_le mincount)]
    simp
  · intro hfalse fd hfd hres
    unfold fds_exceed_POSIX at hfalse ⊢
    rw [hiter] at hfalse ⊢
    exact fdsLoop_vanished resolve realpath mincount (fdcacheCopy ++ scanned)
      fdcacheCopy.toFinset 0 fd hnd hfd hres hfalse

/-- C8 witness: a cache holding one vanished entry, a scan with one matching
and one non-matching entry, threshold 5 so the scan completes. -/
theorem fds_exceed_correct_witness :
    ((fds_exceed_POSIX witnessResolve "/tmp/L" ["/proc/9/fd/4"]
        ["/proc/9/fd/3", "/proc/8/fd/0"] 5).1
      = decide (5 < matchCount witnessResolve "/tmp/L"
          (["/proc/9/fd/4"] ++ ["/proc/9/fd/3", "/proc/8/fd/0"])))
    ∧ ((fds_exceed_POSIX witnessResolve "/tmp/L" ["/proc/9/fd/4"]
          ["/proc/9/fd/3", "/proc/8/fd/0"] 5).1 = false →
        ∀ fd ∈ ["/proc/9/fd/4"] ++ ["/proc/9/fd/3", "/proc/8/fd/0"],
          witnessResolve fd = none →
          fd ∉ (fds_exceed_POSIX witnessResolve "/tmp/L" ["/proc/9/fd/4"]
            ["/proc/9/fd/3", "/proc/8/fd/0"] 5).2) :=
  fds_exceed_correct witnessResolve "/tmp/L" ["/proc/9/fd/4"]
    ["/proc/9/fd/3", "/proc/8/fd/0"] 5 (by decide)

theorem Inv_acquireExclusive (s : TwplState) (h : Inv s) (pa ta : Option ℚ)
    (inp : ExclusiveInput) : Inv (acquireExclusive s pa ta inp).1 := by
  unfold acquireExclusive
  split
  · exact h
  · dsimp only
    split
    · exact h
    · exact h
    · split
      · exact h
      · rename_i hok
        intro _
        simp only [Bool.or_eq_true, Bool.not_eq_true', not_or] at hok
        simpa using hok.2

theorem Inv_releaseExclusive (s : TwplState) (h : Inv s) :
    Inv (releaseExclusive s).1 := by
  unfold releaseExclusive
  split
  · dsimp only
    split
    · intro hf; simp at hf
    · intro hf; simp at hf
  · exact h

theorem Inv_acquireConcurrent (s : TwplState) (h : Inv s) (pa ta : Option ℚ)
    (inp : ConcurrentInput) : Inv (acquireConcurrent s pa ta inp).1 := by
  unfold acquireConcurrent
  split
  · exact h
  · split
    · exact h
    · rename_i hne
      intro hf; simp at hf
      exact absurd hf hne

theorem Inv_releaseConcurrent (s : TwplState) (h : Inv s) :
    Inv (releaseConcurrent s).1 := by
  unfold releaseConcurrent
  split
  · exact h
  · intro hf
    simp [h hf]

theorem Inv_acquire (s : TwplState) (h : Inv s) (m : Nat) (pa ta : Option ℚ)
    (inp : AcquireInput) : Inv (acquire s m pa ta inp).1 := by
  unfold acquire
  split
  · exact Inv_acquireExclusive s h pa ta inp.ex
  · split
    · exact Inv_acquireConcurrent s h pa ta inp.conc
    · exact h

theorem Inv_release (s : TwplState) (h : Inv s) : Inv (release s).1 := by
  unfold release
  split
  · exact h
  · split
    · exact Inv_releaseExclusive s h
    · split
      · exact Inv_releaseConcurrent s h
      · exact h

theorem Inv_exclusiveScoped (s : TwplState) (h : Inv s) (pa ta : Option ℚ)
    (inp : ExclusiveInput) : Inv (exclusiveScoped s pa ta inp).1 := by
  have h1 := Inv_acquireExclusive s h pa ta inp
  unfold exclusiveScoped
  rcases hA : acquireExclusive s pa ta inp with ⟨s1, evs, err⟩
  rw [hA] at h1
  have h2 := Inv_releaseExclusive s1 h1
  rcases hR : releaseExclusive s1 with ⟨s2, evs2, err2⟩
  rw [hR] at h2
  cases err <;> cases err2 <;> simp [hR] <;> exact h2

theorem Inv_concurrentScoped (s : TwplState) (h : Inv s) (pa ta : Option ℚ)
    (inp : ConcurrentInput) : Inv (concurrentScoped s pa ta inp).1 := by
  have h1 := Inv_acquireConcurrent s h pa ta inp
  unfold concurrentScoped
  rcases hA : acquireConcurrent s pa ta inp with ⟨s1, evs, err⟩
  rw [hA] at h1
  have h2 := Inv_releaseConcurrent s1 h1
  rcases hR : releaseConcurrent s1 with ⟨s2, evs2, err2⟩
  rw [hR] at h2
  cases err <;> cases err2 <;> simp [hR] <;> exact h2

theorem mode_exclusive_iff (s : TwplState) (h : Inv s) :
    mode s = Except.ok (some EXCLUSIVE) ↔ s.is_locked_exclusively = true := by
  cases hf : s.is_locked_exclusively <;> cases hh : s.handles <;>
    simp_all [mode, Inv, EXCLUSIVE, CONCURRENT]

theorem mode_concurrent_iff (s : TwplState) (h : Inv s) :
    mode s = Except.ok (some CONCURRENT) ↔ s.handles ≠ [] := by
  cases hf : s.is_locked_exclusively <;> cases hh : s.handles <;>
    simp_all [mode, Inv, EXCLUSIVE, CONCURRENT]

theorem mode_none_iff (s : TwplState) (h : Inv s) :
    mode s = Except.ok none
      ↔ (s.is_locked_exclusively = false ∧ s.handles = []) := by
  cases hf : s.is_locked_exclusively <;> cases hh : s.handles <;>
    simp_all [mode, Inv, EXCLUSIVE, CONCURRENT]

/-- C5: under the object invariant, the observable `mode` is `EXCLUSIVE` iff
the exclusive flag is set, `CONCURRENT` iff the handle list is non-empty,
`None` otherwise; the flag and a non-empty handle list never hold
simultaneously; and the invariant is preserved by every operation — explicit
acquire (any mode) and release, and both scoped acquisitions. -/
theorem mode_reflects_state_and_invariant_preserved (s : TwplState) (h : Inv s) :
    (mode s = Except.ok (some EXCLUSIVE) ↔ s.is_locked_exclusively = true)
    ∧ (mode s = Except.ok (some CONCURRENT) ↔ s.handles ≠ [])
    ∧ (mode s = Except.ok none
        ↔ (s.is_locked_exclusively = false ∧ s.handles = []))
    ∧ ¬(s.is_locked_exclusively = true ∧ s.handles ≠ [])
    ∧ (∀ (m : Nat) (pa ta : Option ℚ) (inp : AcquireInput),
        Inv (acquire s m pa ta inp).1)
    ∧ Inv (release s).1
    ∧ (∀ (pa ta : Option ℚ) (inp : ExclusiveInput),
        Inv (exclusiveScoped s pa ta inp).1)
    ∧ (∀ (pa ta : Option ℚ) (inp : ConcurrentInput),
        Inv (concurrentScoped s pa ta inp).1) :=
  ⟨mode_exclusive_iff s h, mode_concurrent_iff s h, mode_none_iff s h,
    fun hb => hb.2 (h hb.1),
    fun m pa ta inp => Inv_acquire s h m pa ta inp,
    Inv_release s h,
    fun pa ta inp => Inv_exclusiveScoped s h pa ta inp,
    fun pa ta inp => Inv_concurrentScoped s h pa ta inp⟩

/-- C5 witness: the invariant and the `None`-mode reading on a fresh object. -/
theorem mode_reflects_state_witness :
    mode idle = Except.ok none
      ↔ (idle.is_locked_exclusively = false ∧ idle.handles = []) :=
  (mode_reflects_state_and_invariant_preserved idle (by intro h; rfl)).2.2.1

/-- C1: the claim says the census-wait budget is `timeout - (now - start)`
and that with no supplied timeout the census wait never raises Timeout.  The
code instead initialises the budget to `(now - start)` (twpl.py line 188):
with a generous timeout of 10 s, a baton acquisition taking 0.05 s and a
single busy census poll at interval 0.1 s, the acquisition raises Timeout
(budget 0.05 - 0.1 < 0, although 10 - 0.05 - 0.1 > 0); and it raises Timeout
on the same run even when no timeout at all was supplied. -/
theorem census_wait_budget_is_elapsed_not_deadline :
    (acquireExclusive idle (some (1/10)) (some 10)
      ⟨BatonOutcome.acquiredAfter (1/20), 1⟩).2.2 = some PyError.twplTimeout
    ∧ (acquireExclusive idle (some (1/10)) none
      ⟨BatonOutcome.acquiredAfter (1/20), 1⟩).2.2 = some PyError.twplTimeout := by
  constructor <;> norm_num [acquireExclusive, censusWait, pyOr, idle]

/-- C2: the claim says a scoped acquisition whose acquire step exceeds its
deadline surfaces Timeout.  In the code the scope guard's `finally` clause
(twpl.py lines 150-153 and 158-161) runs the private release even when the
acquisition raised; the release's `assert ..., _BUGASS` fails on the unheld
object, so the caller sees the internal-bug `AssertionError` instead of
`TwplTimeoutError`, for both `exclusive()` and `concurrent()`. -/
theorem scoped_timeout_surfaces_assertion_error :
    (exclusiveScoped idle (some (1/10)) (some (1/50))
      ⟨BatonOutcome.timedOut, 0⟩).2.2 = some PyError.assertionError
    ∧ (concurrentScoped idle (some (1/10)) (some (1/50))
      ⟨MomentaryOutcome.timedOut, 7⟩).2.2 = some PyError.assertionError
    ∧ some PyError.assertionError ≠ some PyError.twplTimeout := by
  decide

/-- C3: the claim says that when the census wait times out after the baton
was acquired, the baton is released before Timeout is raised.  In the code
the `raise` at twpl.py line 192 and the re-raise at line 196 leave
`__exclusive_filelock` locked: on a run where the baton was acquired and
the census wait times out, the final state still holds the baton and the
trace contains no baton release. -/
theorem census_timeout_keeps_baton_held :
    (acquireExclusive idle (some (1/10)) (some 10)
      ⟨BatonOutcome.acquiredAfter (1/20), 1⟩).2.2 = some PyError.twplTimeout
    ∧ (acquireExclusive idle (some (1/10)) (some 10)
      ⟨BatonOutcome.acquiredAfter (1/20), 1⟩).1.batonLocked = true
    ∧ Ev.batonRelease ∉ (acquireExclusive idle (some (1/10)) (some 10)
      ⟨BatonOutcome.acquiredAfter (1/20), 1⟩).2.1 := by
  refine ⟨?_, ?_, ?_⟩ <;> norm_num [acquireExclusive, censusWait, pyOr, idle] <;>
    decide

/-- C4: the claim says an exclusive acquisition called without an explicit
poll interval sleeps for the object's default polling period each busy
iteration and raises nothing but Timeout.  The code passes the RAW
`poll_interval` argument to `sleep` (twpl.py line 194), which is `None` when
no explicit poll interval was given: the loop raises `TypeError` on its
first busy iteration with a non-negative budget, and never sleeps the
default period. -/
theorem default_poll_sleep_raises_type_error :
    (acquireExclusive idle none none
      ⟨BatonOutcome.acquiredAfter (1/2), 1⟩).2.2 = some PyError.typeError
    ∧ Ev.sleepCall (some (1/10)) ∉ (acquireExclusive idle none none
      ⟨BatonOutcome.acquiredAfter (1/2), 1⟩).2.1 := by
  constructor <;> norm_num [acquireExclusive, censusWait, pyOr, idle] <;>
    decide

/-- C9: `acquire` with a mode other than `EXCLUSIVE` or `CONCURRENT` raises
`TwplValueError` immediately at the public entry point: the state (exclusive
flag, handle list, and — via the empty trace, which records every census
call — the descriptor cache) is untouched and no baton or filesystem action
happens. -/
theorem acquire_bad_mode_value_error (s : TwplState) (m : Nat)
    (pollArg timeoutArg : Option ℚ) (inp : AcquireInput)
    (h1 : m ≠ EXCLUSIVE) (h2 : m ≠ CONCURRENT) :
    acquire s m pollArg timeoutArg inp = (s, [], some PyError.twplValue) := by
  simp [acquire, h1, h2]

/-- C9 witness: `acquire` at mode 3 on a fresh object. -/
theorem acquire_bad_mode_value_error_witness :
    acquire idle 3 none none dummyAcqInput = (idle, [], some PyError.twplValue) :=
  acquire_bad_mode_value_error idle 3 none none dummyAcqInput
    (by decide) (by decide)

/-- C7: `clean(min_age_seconds)` returns `true` exactly when the zero-timeout
baton acquisition succeeds, the census on the live cache reports no
descriptor beyond the baton's own, and the lockfile age reaches
`min_age_seconds`; and the lockfile is removed exactly on the runs that
return `true`. -/
theorem clean_true_iff (env : CleanEnv) (realpath : String)
    (fdcache : List String) (m : ℚ) :
    ((clean env realpath fdcache m).1 =
      (env.batonFree
        && !(fds_exceed_POSIX env.resolve realpath fdcache env.scanned 1).1
        && decide (m ≤ env.ageSeconds)))
    ∧ (Ev.removeLockfile ∈ (clean env realpath fdcache m).2.1
        ↔ (clean env realpath fdcache m).1 = true) := by
  by_cases hb : env.batonFree <;>
    by_cases hc : (fds_exceed_POSIX env.resolve realpath fdcache env.scanned 1).1 <;>
      by_cases ha : m ≤ env.ageSeconds <;>
        simp [clean, hb, hc, ha, ge_iff_le]

/-- C10: the claim says every name the package `__init__` imports from the
core module is defined there.  The core module binds `TwplTimeoutError` but
no `TwplError`, while `__init__.py` line 4 imports `TwplError`: importing
the package fails with an `ImportError`. -/
theorem init_import_missing_name :
    packageImportSucceeds = false
    ∧ "TwplError" ∈ initImports
    ∧ "TwplError" ∉ twplModuleNames := by
  decide

end Twpl
